import Mathlib

/-!
Verification development for the hammer/trendline scanner repository.

The Python modules are shallowly embedded over exact rationals (ℚ stands for
the float prices; all algebra in the embedded code is exact, so float
tolerances in the informal statements are subsumed by exact equality).
A DataFrame of OHLC bars becomes a `List Bar`; dates are identified with bar
indices (the `date` fields of the Python dataclasses carry no algorithmic
content and are omitted, as is the cosmetic `angle_degrees` field computed
with a transcendental `arctan`).
-/

/-- One OHLC bar of the price series (a DataFrame row).  The `Open` column is
named `opn` because `open` is a Lean keyword. -/
structure Bar where
  opn : ℚ
  high : ℚ
  low : ℚ
  close : ℚ
deriving DecidableEq, Repr

/-- scipy `np.take(..., mode=clip)` index clipping to `[0, n-1]` (the lower
clip is implicit in ℕ subtraction at call sites). -/
def clipIdx (n j : ℕ) : ℕ := min j (n - 1)

/-- One point of scipy `_boolrelextrema(data, comparator, order, mode=clip)`:
`data[i]` must satisfy the comparator against the clipped neighbours
`data[clip(i+s)]` and `data[clip(i-s)]` for every shift `s = 1..order`. -/
def isRelExtremum (data : List ℚ) (cmp : ℚ → ℚ → Bool) (order : ℕ) (i : ℕ) : Bool :=
  (List.range order).all fun k =>
    cmp (data.getD i 0) (data.getD (clipIdx data.length (i + (k + 1))) 0) &&
    cmp (data.getD i 0) (data.getD (i - (k + 1)) 0)

/-- scipy `argrelextrema(data, comparator, order=order)[0]`: the ascending
list of indices that are relative extrema under the clipped comparison. -/
def argrelextrema (data : List ℚ) (cmp : ℚ → ℚ → Bool) (order : ℕ) : List ℕ :=
  (List.range data.length).filter (isRelExtremum data cmp order)

/-- `np.greater_equal` as a boolean comparator. -/
def geB (a b : ℚ) : Bool := decide (a ≥ b)

/-- `np.less_equal` as a boolean comparator. -/
def leB (a b : ℚ) : Bool := decide (a ≤ b)

/-- `pivot_detector.PivotPoint` (the `date` field is omitted: it is
`df.index[idx]`, carried only for display). -/
structure PivotPoint where
  index : ℕ
  price : ℚ
  is_high : Bool
deriving DecidableEq, Repr

/-- `pivot_detector.detect_pivot_highs` with the default column `High`:
local maxima by `argrelextrema(highs, np.greater_equal, order=lookback)`,
then kept only if `idx <= max_valid_index` where `max_valid_index` is
`len(df) - lookback - 1` when `exclude_recent` else `len(df) - 1`
(computed in ℤ because the Python value may be negative). -/
def detect_pivot_highs (df : List Bar) (lookback : ℕ := 10)
    (exclude_recent : Bool := true) : List PivotPoint :=
  let highs := df.map (·.high)
  let pivot_indices := argrelextrema highs geB lookback
  let max_valid_index : ℤ :=
    if exclude_recent then (df.length : ℤ) - lookback - 1 else (df.length : ℤ) - 1
  (pivot_indices.filter (fun (idx : ℕ) => decide ((idx : ℤ) ≤ max_valid_index))).map
    (fun idx => { index := idx, price := highs.getD idx 0, is_high := true })

/-- `pivot_detector.detect_pivot_lows` with the default column `Low`. -/
def detect_pivot_lows (df : List Bar) (lookback : ℕ := 10)
    (exclude_recent : Bool := true) : List PivotPoint :=
  let lows := df.map (·.low)
  let pivot_indices := argrelextrema lows leB lookback
  let max_valid_index : ℤ :=
    if exclude_recent then (df.length : ℤ) - lookback - 1 else (df.length : ℤ) - 1
  (pivot_indices.filter (fun (idx : ℕ) => decide ((idx : ℤ) ≤ max_valid_index))).map
    (fun idx => { index := idx, price := lows.getD idx 0, is_high := false })

-- Helper: membership in the pivot lists forces the index bound.
lemma mem_detect_pivot_highs_index_le {df : List Bar} {lookback : ℕ} {p : PivotPoint}
    (hp : p ∈ detect_pivot_highs df lookback true) :
    (p.index : ℤ) ≤ (df.length : ℤ) - lookback - 1 := by
  unfold detect_pivot_highs at hp
  simp only [List.mem_map, List.mem_filter] at hp
  obtain ⟨idx, ⟨-, hle⟩, rfl⟩ := hp
  simpa using hle

lemma mem_detect_pivot_lows_index_le {df : List Bar} {lookback : ℕ} {p : PivotPoint}
    (hp : p ∈ detect_pivot_lows df lookback true) :
    (p.index : ℤ) ≤ (df.length : ℤ) - lookback - 1 := by
  unfold detect_pivot_lows at hp
  simp only [List.mem_map, List.mem_filter] at hp
  obtain ⟨idx, ⟨-, hle⟩, rfl⟩ := hp
  simpa using hle

/-- **C2.** Every pivot returned by `detect_pivot_highs` / `detect_pivot_lows`
with `exclude_recent = true` has index at most `len(df) - lookback - 1`;
equivalently at least `lookback` bars of the series exist strictly after it. -/
theorem confirmed_pivot_has_lookback_bars_after
    (df : List Bar) (lookback : ℕ) (p : PivotPoint)
    (hp : p ∈ detect_pivot_highs df lookback true ∨
          p ∈ detect_pivot_lows df lookback true) :
    (p.index : ℤ) ≤ (df.length : ℤ) - lookback - 1 ∧
      p.index + lookback + 1 ≤ df.length := by
  have h : (p.index : ℤ) ≤ (df.length : ℤ) - lookback - 1 := by
    rcases hp with h | h
    · exact mem_detect_pivot_highs_index_le h
    · exact mem_detect_pivot_lows_index_le h
  exact ⟨h, by omega⟩

/-- Witness for C2 at a concrete series: `[1,5,2,3]` with `lookback = 1` has a
confirmed pivot high at index 1, and the bound holds there. -/
theorem confirmed_pivot_has_lookback_bars_after_witness :
    ((⟨1, 5, true⟩ : PivotPoint) ∈
        detect_pivot_highs [⟨1,1,1,1⟩, ⟨5,5,5,5⟩, ⟨2,2,2,2⟩, ⟨3,3,3,3⟩] 1 true ∨
      (⟨1, 5, true⟩ : PivotPoint) ∈
        detect_pivot_lows [⟨1,1,1,1⟩, ⟨5,5,5,5⟩, ⟨2,2,2,2⟩, ⟨3,3,3,3⟩] 1 true) ∧
    (((1 : ℕ) : ℤ) ≤ (([⟨1,1,1,1⟩, ⟨5,5,5,5⟩, ⟨2,2,2,2⟩, ⟨3,3,3,3⟩] : List Bar).length : ℤ) - 1 - 1 ∧
      1 + 1 + 1 ≤ ([⟨1,1,1,1⟩, ⟨5,5,5,5⟩, ⟨2,2,2,2⟩, ⟨3,3,3,3⟩] : List Bar).length) := by
  have hmem : (⟨1, 5, true⟩ : PivotPoint) ∈
      detect_pivot_highs [⟨1,1,1,1⟩, ⟨5,5,5,5⟩, ⟨2,2,2,2⟩, ⟨3,3,3,3⟩] 1 true := by decide
  exact ⟨Or.inl hmem,
    confirmed_pivot_has_lookback_bars_after _ 1 _ (Or.inl hmem)⟩

/-- **C5 counterexample.** The series `[5,1,2]` has 3 bars, which is shorter
than `2*lookback+1 = 5` for `lookback = 2`, yet `detect_pivot_highs` with
`exclude_recent = true` returns a pivot (index 0 survives the scipy clipped
boundary comparison and `0 <= len - lookback - 1 = 0`). -/
theorem short_series_pivot_nonempty_cex :
    ([⟨5,5,5,5⟩, ⟨1,1,1,1⟩, ⟨2,2,2,2⟩] : List Bar).length < 2 * 2 + 1 ∧
    detect_pivot_highs [⟨5,5,5,5⟩, ⟨1,1,1,1⟩, ⟨2,2,2,2⟩] 2 true ≠ [] := by
  constructor
  · decide
  · decide

/-- **C5 (amended).** For every series with fewer than `lookback + 1` bars,
pivot detection (with the default `exclude_recent = true`) returns an empty
result (the embedded functions are total, so no error can be raised). -/
theorem very_short_series_detects_no_pivots (df : List Bar) (lookback : ℕ)
    (h : df.length < lookback + 1) :
    detect_pivot_highs df lookback true = [] ∧
      detect_pivot_lows df lookback true = [] := by
  constructor
  · unfold detect_pivot_highs
    simp only [List.map_eq_nil_iff, List.filter_eq_nil_iff, decide_eq_true_eq, if_true]
    intro idx _
    omega
  · unfold detect_pivot_lows
    simp only [List.map_eq_nil_iff, List.filter_eq_nil_iff, decide_eq_true_eq, if_true]
    intro idx _
    omega

/-- Witness for the amended C5 at a concrete input: one bar, `lookback = 2`. -/
theorem very_short_series_detects_no_pivots_witness :
    ([⟨1,1,1,1⟩] : List Bar).length < 2 + 1 ∧
    (detect_pivot_highs [⟨1,1,1,1⟩] 2 true = [] ∧
      detect_pivot_lows [⟨1,1,1,1⟩] 2 true = []) :=
  ⟨by decide, very_short_series_detects_no_pivots _ 2 (by decide)⟩

/-- `hammer_detector.HammerSignal` (the `date` field is again omitted). -/
structure HammerSignal where
  index : ℕ
  open_price : ℚ
  high_price : ℚ
  low_price : ℚ
  close_price : ℚ
  pattern_type : String
  is_bullish : Bool
  body_size : ℚ
  lower_wick : ℚ
  upper_wick : ℚ
deriving DecidableEq, Repr

/-- The body of the `detect_hammer_manual` loop for one bar at index `i`:
`None` models `continue` / no signal.  The divisions by `total_range` and by
`close` appear only under the `total_range ≠ 0` branch, exactly as in the
source, where the zero-range `continue` precedes them. -/
def classify_hammer_bar (i : ℕ) (b : Bar)
    (lower_wick_min_pct : ℚ := 0.55) (upper_wick_max_pct : ℚ := 0.25)
    (body_max_pct : ℚ := 0.45) (min_range_pct : ℚ := 1.0) : Option HammerSignal :=
  let o := b.opn
  let h := b.high
  let l := b.low
  let c := b.close
  let total_range := h - l
  if total_range = 0 then none
  else
    let body := |c - o|
    let lower_wick := min o c - l
    let upper_wick := h - max o c
    let body_pct := body / total_range
    let lower_wick_pct := lower_wick / total_range
    let upper_wick_pct := upper_wick / total_range
    let range_pct := (total_range / c) * 100
    if range_pct < min_range_pct then none
    else
      let is_hammer :=
        lower_wick_pct ≥ lower_wick_min_pct ∧
        upper_wick_pct ≤ upper_wick_max_pct ∧
        body_pct ≤ body_max_pct
      let is_inverted :=
        upper_wick_pct ≥ lower_wick_min_pct ∧
        lower_wick_pct ≤ upper_wick_max_pct ∧
        body_pct ≤ body_max_pct
      if is_hammer ∨ is_inverted then
        some { index := i, open_price := o, high_price := h, low_price := l,
               close_price := c,
               pattern_type := if is_inverted then "inverted_hammer" else "hammer",
               is_bullish := decide (c > o),
               body_size := body, lower_wick := lower_wick, upper_wick := upper_wick }
      else none

/-- `hammer_detector.detect_hammer_manual`: scan every bar in order and keep
the qualifying ones. -/
def detect_hammer_manual (df : List Bar)
    (lower_wick_min_pct : ℚ := 0.55) (upper_wick_max_pct : ℚ := 0.25)
    (body_max_pct : ℚ := 0.45) (min_range_pct : ℚ := 1.0) : List HammerSignal :=
  (List.range df.length).filterMap fun i =>
    classify_hammer_bar i (df.getD i ⟨0, 0, 0, 0⟩)
      lower_wick_min_pct upper_wick_max_pct body_max_pct min_range_pct

-- Helper: a signal produced from bar `i` carries index `i`.
lemma classify_hammer_bar_index {i : ℕ} {b : Bar} {q1 q2 q3 q4 : ℚ} {s : HammerSignal}
    (hs : classify_hammer_bar i b q1 q2 q3 q4 = some s) : s.index = i := by
  simp only [classify_hammer_bar] at hs
  split at hs
  · exact absurd hs (by simp)
  · split at hs
    · exact absurd hs (by simp)
    · split at hs
      · cases hs.symm
        rfl
      · exact absurd hs (by simp)

-- Helper: a zero-range bar is skipped before any division is reached.
lemma classify_hammer_bar_zero_range {i : ℕ} {b : Bar} {q1 q2 q3 q4 : ℚ}
    (hb : b.high = b.low) : classify_hammer_bar i b q1 q2 q3 q4 = none := by
  unfold classify_hammer_bar
  rw [if_pos (by rw [hb, sub_self])]

/-- **C6.** A bar with `high == low` produces no signal from the manual candle
classifier: the per-bar classifier returns `None` (the guard `total_range == 0`
fires before the divisions by `total_range` and by `close`, which are
therefore unreachable for such a bar), and consequently no signal in the
output of `detect_hammer_manual` carries that bar's index. -/
theorem zero_range_bar_emits_no_signal
    (df : List Bar) (q1 q2 q3 q4 : ℚ) (i : ℕ)
    (hb : (df.getD i ⟨0, 0, 0, 0⟩).high = (df.getD i ⟨0, 0, 0, 0⟩).low) :
    classify_hammer_bar i (df.getD i ⟨0, 0, 0, 0⟩) q1 q2 q3 q4 = none ∧
    ∀ s ∈ detect_hammer_manual df q1 q2 q3 q4, s.index ≠ i := by
  refine ⟨classify_hammer_bar_zero_range hb, ?_⟩
  intro s hs hsi
  unfold detect_hammer_manual at hs
  rw [List.mem_filterMap] at hs
  obtain ⟨j, -, hj⟩ := hs
  have hji : j = i := by rw [← classify_hammer_bar_index hj, hsi]
  rw [hji, classify_hammer_bar_zero_range hb] at hj
  exact Option.noConfusion hj

/-- Witness for C6: the flat-range bar `{open 1, high 2, low 2, close 1}`. -/
theorem zero_range_bar_emits_no_signal_witness :
    (([⟨1, 2, 2, 1⟩] : List Bar).getD 0 ⟨0, 0, 0, 0⟩).high =
      (([⟨1, 2, 2, 1⟩] : List Bar).getD 0 ⟨0, 0, 0, 0⟩).low ∧
    (classify_hammer_bar 0 (([⟨1, 2, 2, 1⟩] : List Bar).getD 0 ⟨0, 0, 0, 0⟩)
        0.55 0.25 0.45 1.0 = none ∧
      ∀ s ∈ detect_hammer_manual [⟨1, 2, 2, 1⟩] 0.55 0.25 0.45 1.0, s.index ≠ 0) :=
  ⟨by decide, zero_range_bar_emits_no_signal [⟨1, 2, 2, 1⟩] 0.55 0.25 0.45 1.0 0 (by decide)⟩

/-- `finviz_direct.FinvizPattern`: raw pattern data (pixel coordinates are
integers as parsed from the vendor JSON). -/
structure FinvizPattern where
  kind : ℤ
  strength : ℚ
  status : ℤ
  bounces : ℤ
  x1 : ℤ
  y1 : ℤ
  x2 : ℤ
  y2 : ℤ
deriving DecidableEq, Repr

/-- `finviz_direct.y_to_price`: convert a Finviz Y pixel coordinate to price
(chart height defaults to 400). -/
def y_to_price (y : ℤ) (min_price max_price : ℚ) (height : ℕ := 400) : ℚ :=
  max_price - ((y : ℚ) / (height : ℚ)) * (max_price - min_price)

/-- `finviz_direct.get_trendline_price`: price of the pixel-space line at a
bar index; a vertical line (`x2 == x1`) short-circuits to `price1`. -/
def get_trendline_price (pattern : FinvizPattern) (bar_index : ℤ)
    (min_price max_price : ℚ) : ℚ :=
  let price1 := y_to_price pattern.y1 min_price max_price
  let price2 := y_to_price pattern.y2 min_price max_price
  if pattern.x2 = pattern.x1 then price1
  else
    let slope := (price2 - price1) / ((pattern.x2 : ℚ) - (pattern.x1 : ℚ))
    price1 + slope * ((bar_index : ℚ) - (pattern.x1 : ℚ))

/-- **C8.** The pixel-to-price map computes
`maxPrice - (pixelY/chartHeight)*(maxPrice - minPrice)`; in particular
`y_to_price 200 50 150 400 = 100`; and `get_trendline_price` on a vertical
pattern (`x1 == x2`) returns `price1 = y_to_price y1` (the guard makes the
division by `x2 - x1` unreachable, so no error can arise). -/
theorem pixel_price_map_and_vertical_line
    (pattern : FinvizPattern) (bar_index : ℤ) (minP maxP : ℚ)
    (hx : pattern.x1 = pattern.x2) :
    (∀ (y : ℤ) (mn mx : ℚ) (h : ℕ),
        y_to_price y mn mx h = mx - ((y : ℚ) / (h : ℚ)) * (mx - mn)) ∧
    y_to_price 200 50 150 400 = 100 ∧
    get_trendline_price pattern bar_index minP maxP =
      y_to_price pattern.y1 minP maxP := by
  refine ⟨fun y mn mx h => rfl, by norm_num [y_to_price], ?_⟩
  unfold get_trendline_price
  rw [if_pos hx.symm]

/-- Witness for C8 at a concrete vertical pattern (`x1 = x2 = 3`). -/
theorem pixel_price_map_and_vertical_line_witness :
    (⟨2, 1, 1, 0, 3, 100, 3, 200⟩ : FinvizPattern).x1 =
      (⟨2, 1, 1, 0, 3, 100, 3, 200⟩ : FinvizPattern).x2 ∧
    ((∀ (y : ℤ) (mn mx : ℚ) (h : ℕ),
        y_to_price y mn mx h = mx - ((y : ℚ) / (h : ℚ)) * (mx - mn)) ∧
      y_to_price 200 50 150 400 = 100 ∧
      get_trendline_price ⟨2, 1, 1, 0, 3, 100, 3, 200⟩ 7 50 150 =
        y_to_price 100 50 150) :=
  ⟨by decide, pixel_price_map_and_vertical_line ⟨2, 1, 1, 0, 3, 100, 3, 200⟩ 7 50 150 (by decide)⟩

/-- `trendline_calculator.Trendline` (the display-only `angle_degrees` field,
computed with a transcendental `arctan`, and the `date`s inside pivots are
omitted). -/
structure Trendline where
  slope : ℚ
  intercept : ℚ
  start_index : ℕ
  end_index : ℕ
  start_price : ℚ
  end_price : ℚ
  pivot_points : List PivotPoint
  is_resistance : Bool
  r_squared : ℚ
deriving DecidableEq, Repr

/-- `Trendline.get_price_at_index`: the line price at a bar index. -/
def Trendline.get_price_at_index (t : Trendline) (index : ℕ) : ℚ :=
  t.slope * index + t.intercept

/-- `signal_generator.evaluate_signal_strength`: accumulate the distance,
line-fit and wick scores, then bucket into STRONG / MODERATE / WEAK. -/
def evaluate_signal_strength (distance_pct : ℚ) (is_touch : Bool)
    (hammer : HammerSignal) (trendline : Trendline) : String :=
  let score : ℕ := 0
  let score : ℕ :=
    if is_touch = true ∨ distance_pct < 0.5 then score + 3
    else if distance_pct < 1.0 then score + 2
    else if distance_pct < 2.0 then score + 1
    else score
  let score : ℕ :=
    if trendline.r_squared > 0.95 then score + 2
    else if trendline.r_squared > 0.80 then score + 1
    else score
  let wick_r := hammer.lower_wick / (hammer.body_size + 0.001)
  let score : ℕ := if wick_r > 3.0 then score + 1 else score
  if score ≥ 5 then "STRONG"
  else if score ≥ 3 then "MODERATE"
  else "WEAK"

/-- Spec-side restatement of the distance component of the strength score:
`+3` on touch or distance `< 0.5`, else `+2` below `1.0`, else `+1` below
`2.0`, else `0`, with strict `<` at every bucket boundary. -/
def spec_distance_score (d : ℚ) (touch : Bool) : ℕ :=
  if touch = true ∨ d < 1/2 then 3
  else if d < 1 then 2
  else if d < 2 then 1
  else 0

/-- Spec-side restatement of the line-fit component: `+2` if `r² > 0.95`,
else `+1` if `r² > 0.80`. -/
def spec_fit_score (r : ℚ) : ℕ :=
  if r > 95/100 then 2 else if r > 4/5 then 1 else 0

/-- Spec-side restatement of the wick component:
`+1` if `lowerWick/(body + 0.001) > 3`. -/
def spec_wick_score (lw body : ℚ) : ℕ :=
  if lw / (body + 1/1000) > 3 then 1 else 0

/-- Spec-side bucketing of the total score. -/
def spec_strength_label (s : ℕ) : String :=
  if 5 ≤ s then "STRONG" else if 3 ≤ s then "MODERATE" else "WEAK"

/-- **C4.** The strength evaluator equals the sum-of-three-components model
from the spec (distance bucket + fit bucket + wick bonus, bucketed at ≥5 /
≥3), and at distance exactly `1.0` without a touch the distance component is
`1`, not `2` (the `< 1.0` comparison is strict). -/
theorem evaluate_signal_strength_decomposes
    (d : ℚ) (touch : Bool) (hammer : HammerSignal) (tl : Trendline) :
    evaluate_signal_strength d touch hammer tl =
      spec_strength_label
        (spec_distance_score d touch + spec_fit_score tl.r_squared +
          spec_wick_score hammer.lower_wick hammer.body_size) ∧
    spec_distance_score 1 false = 1 := by
  constructor
  · show (if _ ≥ 5 then _ else _) = spec_strength_label _
    rw [spec_distance_score, spec_fit_score, spec_wick_score, spec_strength_label]
    norm_num only
    split_ifs <;> rfl
  · rw [spec_distance_score]
    norm_num

/-- `trendline_calculator.calculate_linear_regression`: least-squares slope,
intercept and R² over parallel x/y arrays; raises (here: `Except.error`) on
fewer than 2 points; a zero denominator falls back to slope 0; `R² = 1` when
the total sum of squares is zero. -/
def calculate_linear_regression (x y : List ℚ) : Except String (ℚ × ℚ × ℚ) :=
  let n : ℕ := x.length
  if n < 2 then .error "Need at least 2 points for linear regression"
  else
    let sum_x := x.sum
    let sum_y := y.sum
    let sum_xy := ((x.zip y).map fun p => p.1 * p.2).sum
    let sum_x_sq := (x.map fun a => a ^ 2).sum
    let denominator := (n : ℚ) * sum_x_sq - sum_x ^ 2
    let slope := if denominator = 0 then 0 else ((n : ℚ) * sum_xy - sum_x * sum_y) / denominator
    let intercept := (sum_y - slope * sum_x) / (n : ℚ)
    let y_pred := x.map fun a => slope * a + intercept
    let ss_res := ((y.zip y_pred).map fun p => (p.1 - p.2) ^ 2).sum
    let ss_tot := (y.map fun v => (v - sum_y / (n : ℚ)) ^ 2).sum
    let r_squared := if ss_tot = 0 then 1 else 1 - ss_res / ss_tot
    .ok (slope, intercept, r_squared)

/-- **C3.** Fitting `calculate_linear_regression` through exactly two pivots
at distinct bar indices (the `num_pivots=2` configuration of
`calculate_resistance_trendline` / `calculate_support_trendline`) succeeds
with `R² = 1`, and any trendline carrying the resulting slope and intercept
reproduces both pivot prices exactly via `get_price_at_index` (exact rational
equality, hence a fortiori within the floating tolerance `1e-9`). -/
theorem two_pivot_regression_is_exact (p1 p2 : PivotPoint)
    (hne : p1.index ≠ p2.index) :
    ∃ slope intercept r_squared,
      calculate_linear_regression [(p1.index : ℚ), (p2.index : ℚ)]
          [p1.price, p2.price] = .ok (slope, intercept, r_squared) ∧
      r_squared = 1 ∧
      ∀ t : Trendline, t.slope = slope → t.intercept = intercept →
        t.get_price_at_index p1.index = p1.price ∧
        t.get_price_at_index p2.index = p2.price := by
  set a : ℚ := (p1.index : ℚ) with ha
  set b : ℚ := (p2.index : ℚ) with hb
  set p : ℚ := p1.price
  set q : ℚ := p2.price
  have hab : a ≠ b := fun h => hne (Nat.cast_injective h)
  have hab' : b - a ≠ 0 := sub_ne_zero_of_ne (Ne.symm hab)
  have hslope : ((q - p) / (b - a)) * a + (p + q - (q - p) / (b - a) * (a + b)) / 2 = p ∧
      ((q - p) / (b - a)) * b + (p + q - (q - p) / (b - a) * (a + b)) / 2 = q := by
    constructor <;> (field_simp; ring)
  refine ⟨(q - p) / (b - a), (p + q - (q - p) / (b - a) * (a + b)) / 2, 1, ?_, rfl, ?_⟩
  · unfold calculate_linear_regression
    rw [if_neg (by simp)]
    simp only [List.zip_cons_cons, List.zip_nil_right, List.map_cons, List.map_nil,
      List.sum_cons, List.sum_nil, List.length_cons, List.length_nil]
    norm_num only
    split_ifs with hc1 hc2 hc3
    · exact absurd ((pow_eq_zero_iff (by norm_num : (2:ℕ) ≠ 0)).mp
        (show (b - a) ^ 2 = 0 by linear_combination hc1)) hab'
    · exact absurd ((pow_eq_zero_iff (by norm_num : (2:ℕ) ≠ 0)).mp
        (show (b - a) ^ 2 = 0 by linear_combination hc1)) hab'
    · have hS : (2 * (a * p + (b * q + 0)) - (a + (b + 0)) * (p + (q + 0))) /
          (2 * (a ^ 2 + (b ^ 2 + 0)) - (a + (b + 0)) ^ 2) = (q - p) / (b - a) := by
        rw [div_eq_div_iff hc1 hab']
        ring
      simp only [Except.ok.injEq, Prod.mk.injEq]
      refine ⟨hS, ?_, trivial⟩
      rw [hS]
      ring
    · have hS : (2 * (a * p + (b * q + 0)) - (a + (b + 0)) * (p + (q + 0))) /
          (2 * (a ^ 2 + (b ^ 2 + 0)) - (a + (b + 0)) ^ 2) = (q - p) / (b - a) := by
        rw [div_eq_div_iff hc1 hab']
        ring
      simp only [Except.ok.injEq, Prod.mk.injEq]
      refine ⟨hS, ?_, ?_⟩
      · rw [hS]
        ring
      · rw [sub_eq_self, div_eq_zero_iff]
        left
        rw [hS]
        have h1 : p - ((q - p) / (b - a) * a +
            (p + (q + 0) - (q - p) / (b - a) * (a + (b + 0))) / 2) = 0 := by
          linear_combination -hslope.1
        have h2 : q - ((q - p) / (b - a) * b +
            (p + (q + 0) - (q - p) / (b - a) * (a + (b + 0))) / 2) = 0 := by
          linear_combination -hslope.2
        rw [h1, h2]
        norm_num
  · intro t hts hti
    rw [Trendline.get_price_at_index, Trendline.get_price_at_index, hts, hti, ← ha, ← hb]
    exact hslope

/-- Witness for C3 at the concrete pivots `(0, 10)` and `(1, 20)`. -/
theorem two_pivot_regression_is_exact_witness :
    ((⟨0, 10, true⟩ : PivotPoint).index ≠ (⟨1, 20, true⟩ : PivotPoint).index) ∧
    (∃ slope intercept r_squared,
      calculate_linear_regression
          [(((⟨0, 10, true⟩ : PivotPoint).index : ℚ)), (((⟨1, 20, true⟩ : PivotPoint).index : ℚ))]
          [(⟨0, 10, true⟩ : PivotPoint).price, (⟨1, 20, true⟩ : PivotPoint).price] =
        .ok (slope, intercept, r_squared) ∧
      r_squared = 1 ∧
      ∀ t : Trendline, t.slope = slope → t.intercept = intercept →
        t.get_price_at_index (⟨0, 10, true⟩ : PivotPoint).index = (⟨0, 10, true⟩ : PivotPoint).price ∧
        t.get_price_at_index (⟨1, 20, true⟩ : PivotPoint).index = (⟨1, 20, true⟩ : PivotPoint).price) :=
  ⟨by decide, two_pivot_regression_is_exact ⟨0, 10, true⟩ ⟨1, 20, true⟩ (by decide)⟩

/-- `finviz_trendlines.FinvizTrendline` (display fields kept; the constant
`r_squared=0.9` placeholder of the source is reproduced at the call sites). -/
structure FinvizTrendline where
  slope : ℚ
  intercept : ℚ
  start_index : ℕ
  end_index : ℕ
  touches : ℕ
  is_upper : Bool
  r_squared : ℚ
deriving DecidableEq, Repr

/-- `finviz_trendlines.find_significant_highs`: indices of `greater_equal`
relative extrema of the High column, paired with their prices. -/
def find_significant_highs (df : List Bar) (window : ℕ := 10) : List (ℕ × ℚ) :=
  let highs := df.map (·.high)
  (argrelextrema highs geB window).map fun i => (i, highs.getD i 0)

/-- `finviz_trendlines.find_significant_lows`. -/
def find_significant_lows (df : List Bar) (window : ℕ := 10) : List (ℕ × ℚ) :=
  let lows := df.map (·.low)
  (argrelextrema lows leB window).map fun i => (i, lows.getD i 0)

/-- Python tuple order on `(index, price)` pairs, as used by `sorted`. -/
def pair_le (x y : ℕ × ℚ) : Bool :=
  decide (x.1 < y.1 ∨ (x.1 = y.1 ∧ x.2 ≤ y.2))

/-- Insertion step of the sort. -/
def insert_pair (x : ℕ × ℚ) : List (ℕ × ℚ) → List (ℕ × ℚ)
  | [] => [x]
  | y :: ys => if pair_le x y then x :: y :: ys else y :: insert_pair x ys

/-- Python `sorted` on `(index, price)` tuples (insertion sort; duplicate
entries here are fully equal pairs, so stability is immaterial). -/
def pysorted : List (ℕ × ℚ) → List (ℕ × ℚ)
  | [] => []
  | x :: xs => insert_pair x (pysorted xs)

/-- The `seen`-set de-duplication loop of the envelope fitters: keep the
first occurrence of each bar index. -/
def dedup_by_index (seen : List ℕ) : List (ℕ × ℚ) → List (ℕ × ℚ)
  | [] => []
  | x :: xs =>
    if x.1 ∈ seen then dedup_by_index seen xs
    else x :: dedup_by_index (x.1 :: seen) xs

/-- `sorted` + first-occurrence de-duplication, shared by both fitters. -/
def unique_points (pts : List (ℕ × ℚ)) : List (ℕ × ℚ) :=
  dedup_by_index [] (pysorted pts)

/-- The per-point body of the upper-envelope counting loop: `(1,0)` for a
touch, `(0,1)` for a violation, `(0,0)` otherwise.  A non-positive line price
coerces `diff_pct` to `0`, which lands in the touch band. -/
def upper_point_contrib (slope intercept : ℚ) (pt : ℕ × ℚ) : ℕ × ℕ :=
  let line_price := slope * (pt.1 : ℚ) + intercept
  let diff_pct := if line_price > 0 then (pt.2 - line_price) / line_price * 100 else 0
  if diff_pct ≥ -1.5 ∧ diff_pct ≤ 1.5 then (1, 0)
  else if diff_pct > 1.5 then (0, 1)
  else (0, 0)

/-- The per-point body of the lower-envelope counting loop: a non-positive
line price is `continue`d over. -/
def lower_point_contrib (slope intercept : ℚ) (pt : ℕ × ℚ) : ℕ × ℕ :=
  let line_price := slope * (pt.1 : ℚ) + intercept
  if line_price ≤ 0 then (0, 0)
  else
    let diff_pct := (pt.2 - line_price) / line_price * 100
    if diff_pct ≥ -1.5 ∧ diff_pct ≤ 1.5 then (1, 0)
    else if diff_pct < -1.5 then (0, 1)
    else (0, 0)

/-- Accumulate the `(touches, violations)` contributions over all candidate
points (the counting loop of the fitters). -/
def sum_contribs (f : ℕ × ℚ → ℕ × ℕ) : List (ℕ × ℚ) → ℕ × ℕ
  | [] => (0, 0)
  | pt :: pts =>
    let c := f pt
    let rest := sum_contribs f pts
    (c.1 + rest.1, c.2 + rest.2)

/-- **C9.** The two envelope fitters treat a candidate point with
non-positive line price asymmetrically: the upper-envelope loop coerces its
percentage deviation to `0` and counts it as a touch (and never as a
violation), while the lower-envelope loop skips it, counting neither a touch
nor a violation. -/
theorem nonpositive_line_price_counts_touch_only_in_upper
    (slope intercept : ℚ) (pt : ℕ × ℚ) (pts : List (ℕ × ℚ))
    (h : slope * (pt.1 : ℚ) + intercept ≤ 0) :
    upper_point_contrib slope intercept pt = (1, 0) ∧
    lower_point_contrib slope intercept pt = (0, 0) ∧
    sum_contribs (upper_point_contrib slope intercept) (pt :: pts) =
      (1 + (sum_contribs (upper_point_contrib slope intercept) pts).1,
        (sum_contribs (upper_point_contrib slope intercept) pts).2) ∧
    sum_contribs (lower_point_contrib slope intercept) (pt :: pts) =
      sum_contribs (lower_point_contrib slope intercept) pts := by
  have hu : upper_point_contrib slope intercept pt = (1, 0) := by
    simp only [upper_point_contrib]
    rw [if_neg (not_lt.mpr h)]
    norm_num
  have hl : lower_point_contrib slope intercept pt = (0, 0) := by
    simp only [lower_point_contrib]
    rw [if_pos h]
  refine ⟨hu, hl, ?_, ?_⟩
  · simp [sum_contribs, hu]
  · simp [sum_contribs, hl]

/-- Witness for C9: the zero line (`slope = 0`, `intercept = 0`) has
non-positive price at the point `(1, 5)`. -/
theorem nonpositive_line_price_counts_touch_only_in_upper_witness :
    ((0 : ℚ) * (((1, 5) : ℕ × ℚ).1 : ℚ) + 0 ≤ 0) ∧
    (upper_point_contrib 0 0 (1, 5) = (1, 0) ∧
      lower_point_contrib 0 0 (1, 5) = (0, 0) ∧
      sum_contribs (upper_point_contrib 0 0) ((1, 5) :: []) =
        (1 + (sum_contribs (upper_point_contrib 0 0) []).1,
          (sum_contribs (upper_point_contrib 0 0) []).2) ∧
      sum_contribs (lower_point_contrib 0 0) ((1, 5) :: []) =
        sum_contribs (lower_point_contrib 0 0) []) :=
  ⟨by norm_num,
    nonpositive_line_price_counts_touch_only_in_upper 0 0 (1, 5) [] (by norm_num)⟩

-- Membership is invariant under the Python sort.
lemma mem_insert_pair {x y : ℕ × ℚ} {l : List (ℕ × ℚ)} :
    x ∈ insert_pair y l ↔ x = y ∨ x ∈ l := by
  induction l with
  | nil => simp [insert_pair]
  | cons z zs ih =>
    simp only [insert_pair]
    split
    · simp [List.mem_cons]
    · simp only [List.mem_cons, ih]
      tauto

lemma mem_pysorted {x : ℕ × ℚ} {l : List (ℕ × ℚ)} : x ∈ pysorted l ↔ x ∈ l := by
  induction l with
  | nil => simp [pysorted]
  | cons y ys ih => simp [pysorted, mem_insert_pair, ih]

-- The de-duplication loop only drops elements.
lemma mem_dedup_subset {x : ℕ × ℚ} {seen : List ℕ} {l : List (ℕ × ℚ)}
    (hx : x ∈ dedup_by_index seen l) : x ∈ l := by
  induction l generalizing seen with
  | nil => simp [dedup_by_index] at hx
  | cons y ys ih =>
    simp only [dedup_by_index] at hx
    split at hx
    · exact List.mem_cons_of_mem _ (ih hx)
    · rcases List.mem_cons.mp hx with h | h
      · exact h ▸ List.mem_cons_self _ _
      · exact List.mem_cons_of_mem _ (ih h)

-- An element whose index is unseen and whose price is determined by its
-- index survives the de-duplication loop.
lemma mem_dedup_of_mem {x : ℕ × ℚ} {seen : List ℕ} {l : List (ℕ × ℚ)}
    (hx : x ∈ l) (hseen : x.1 ∉ seen)
    (hfun : ∀ y ∈ l, y.1 = x.1 → y.2 = x.2) :
    x ∈ dedup_by_index seen l := by
  induction l generalizing seen with
  | nil => cases hx
  | cons y ys ih =>
    simp only [dedup_by_index]
    split
    · rename_i hy
      have hx' : x ∈ ys := by
        rcases List.mem_cons.mp hx with he | h'
        · exact absurd (he ▸ hy) hseen
        · exact h'
      exact ih hx' hseen fun z hz => hfun z (List.mem_cons_of_mem _ hz)
    · rename_i hy
      by_cases hxy : x.1 = y.1
      · have hyx : y = x :=
          Prod.ext_iff.mpr ⟨hxy.symm, hfun y (List.mem_cons_self _ _) hxy.symm⟩
        exact hyx ▸ List.mem_cons_self _ _
      · have hx' : x ∈ ys := by
          rcases List.mem_cons.mp hx with he | h'
          · exact absurd (congrArg Prod.fst he) hxy
          · exact h'
        refine List.mem_cons_of_mem _ (ih hx' ?_ fun z hz => hfun z (List.mem_cons_of_mem _ hz))
        simp only [List.mem_cons]
        rintro (h | h)
        · exact hxy h
        · exact hseen h

-- A relative extremum for a larger window is one for any smaller window.
lemma isRelExtremum_mono {data : List ℚ} {cmp : ℚ → ℚ → Bool} {w w' i : ℕ}
    (hw : w ≤ w') (h : isRelExtremum data cmp w' i = true) :
    isRelExtremum data cmp w i = true := by
  simp only [isRelExtremum, List.all_eq_true, List.mem_range] at h ⊢
  intro k hk
  exact h k (lt_of_lt_of_le hk hw)

lemma mem_find_significant_highs {df : List Bar} {w : ℕ} {pt : ℕ × ℚ} :
    pt ∈ find_significant_highs df w ↔
      isRelExtremum (df.map (·.high)) geB w pt.1 = true ∧ pt.1 < df.length ∧
        pt.2 = (df.map (·.high)).getD pt.1 0 := by
  simp only [find_significant_highs, argrelextrema, List.mem_map, List.mem_filter,
    List.mem_range, List.length_map]
  constructor
  · rintro ⟨i, ⟨hi, hext⟩, rfl⟩
    exact ⟨hext, hi, rfl⟩
  · rintro ⟨hext, hlen, hsnd⟩
    exact ⟨pt.1, ⟨hlen, hext⟩, Prod.ext_iff.mpr ⟨rfl, hsnd.symm⟩⟩

lemma mem_find_significant_lows {df : List Bar} {w : ℕ} {pt : ℕ × ℚ} :
    pt ∈ find_significant_lows df w ↔
      isRelExtremum (df.map (·.low)) leB w pt.1 = true ∧ pt.1 < df.length ∧
        pt.2 = (df.map (·.low)).getD pt.1 0 := by
  simp only [find_significant_lows, argrelextrema, List.mem_map, List.mem_filter,
    List.mem_range, List.length_map]
  constructor
  · rintro ⟨i, ⟨hi, hext⟩, rfl⟩
    exact ⟨hext, hi, rfl⟩
  · rintro ⟨hext, hlen, hsnd⟩
    exact ⟨pt.1, ⟨hlen, hext⟩, Prod.ext_iff.mpr ⟨rfl, hsnd.symm⟩⟩

/-- **C10.** Merging the window-5, window-10 and window-15 significant points
and de-duplicating by bar index yields exactly the window-5 point set, for
highs and for lows: every order-10 or order-15 relative extremum under the
clipped `greater_equal` / `less_equal` comparison is already an order-5 one
(shown in full generality by the last conjunct). -/
theorem multi_window_merge_equals_window5 (df : List Bar) :
    (∀ pt, pt ∈ unique_points (find_significant_highs df 5 ++
        find_significant_highs df 10 ++ find_significant_highs df 15) ↔
      pt ∈ find_significant_highs df 5) ∧
    (∀ pt, pt ∈ unique_points (find_significant_lows df 5 ++
        find_significant_lows df 10 ++ find_significant_lows df 15) ↔
      pt ∈ find_significant_lows df 5) ∧
    (∀ (data : List ℚ) (cmp : ℚ → ℚ → Bool) (w w' i : ℕ), w ≤ w' →
      isRelExtremum data cmp w' i = true → isRelExtremum data cmp w i = true) := by
  refine ⟨?_, ?_, fun data cmp w w' i hw h => isRelExtremum_mono hw h⟩
  · intro pt
    have hsub : ∀ x : ℕ × ℚ, x ∈ find_significant_highs df 5 ++
        find_significant_highs df 10 ++ find_significant_highs df 15 →
        x ∈ find_significant_highs df 5 := by
      intro x hx
      rcases List.mem_append.mp hx with hx' | h15
      · rcases List.mem_append.mp hx' with h5 | h10
        · exact h5
        · obtain ⟨hext, hlen, hsnd⟩ := mem_find_significant_highs.mp h10
          exact mem_find_significant_highs.mpr
            ⟨isRelExtremum_mono (by norm_num) hext, hlen, hsnd⟩
      · obtain ⟨hext, hlen, hsnd⟩ := mem_find_significant_highs.mp h15
        exact mem_find_significant_highs.mpr
          ⟨isRelExtremum_mono (by norm_num) hext, hlen, hsnd⟩
    constructor
    · intro hpt
      exact hsub _ (mem_pysorted.mp (mem_dedup_subset hpt))
    · intro hpt
      refine mem_dedup_of_mem (mem_pysorted.mpr ?_) (by simp) ?_
      · exact List.mem_append.mpr (Or.inl (List.mem_append.mpr (Or.inl hpt)))
      · intro y hy hy1
        have h5y := mem_find_significant_highs.mp (hsub _ (mem_pysorted.mp hy))
        have h5pt := mem_find_significant_highs.mp hpt
        rw [h5y.2.2, h5pt.2.2, hy1]
  · intro pt
    have hsub : ∀ x : ℕ × ℚ, x ∈ find_significant_lows df 5 ++
        find_significant_lows df 10 ++ find_significant_lows df 15 →
        x ∈ find_significant_lows df 5 := by
      intro x hx
      rcases List.mem_append.mp hx with hx' | h15
      · rcases List.mem_append.mp hx' with h5 | h10
        · exact h5
        · obtain ⟨hext, hlen, hsnd⟩ := mem_find_significant_lows.mp h10
          exact mem_find_significant_lows.mpr
            ⟨isRelExtremum_mono (by norm_num) hext, hlen, hsnd⟩
      · obtain ⟨hext, hlen, hsnd⟩ := mem_find_significant_lows.mp h15
        exact mem_find_significant_lows.mpr
          ⟨isRelExtremum_mono (by norm_num) hext, hlen, hsnd⟩
    constructor
    · intro hpt
      exact hsub _ (mem_pysorted.mp (mem_dedup_subset hpt))
    · intro hpt
      refine mem_dedup_of_mem (mem_pysorted.mpr ?_) (by simp) ?_
      · exact List.mem_append.mpr (Or.inl (List.mem_append.mpr (Or.inl hpt)))
      · intro y hy hy1
        have h5y := mem_find_significant_lows.mp (hsub _ (mem_pysorted.mp hy))
        have h5pt := mem_find_significant_lows.mp hpt
        rw [h5y.2.2, h5pt.2.2, hy1]

/-- Witness for C10 on the one-bar series `[1]`: the merged de-duplicated
set contains `(0, 1)` because the window-5 set does, and the order-10
extremum at index 0 is an order-5 extremum. -/
theorem multi_window_merge_equals_window5_witness :
    (((0, 1) : ℕ × ℚ) ∈ unique_points (find_significant_highs [⟨1,1,1,1⟩] 5 ++
        find_significant_highs [⟨1,1,1,1⟩] 10 ++ find_significant_highs [⟨1,1,1,1⟩] 15)) ∧
    (5 ≤ 10 ∧ isRelExtremum [1] geB 10 0 = true ∧ isRelExtremum [1] geB 5 0 = true) :=
  ⟨((multi_window_merge_equals_window5 [⟨1,1,1,1⟩]).1 (0, 1)).mpr (by decide),
    by norm_num, by decide,
    (multi_window_merge_equals_window5 [⟨1,1,1,1⟩]).2.2 [1] geB 5 10 0 (by norm_num) (by decide)⟩

/-- The `i < j` double loop of the envelope fitters: all ordered pairs of
list elements, enumerated `i` ascending, then `j` ascending. -/
def enum_pairs {α : Type} : List α → List (α × α)
  | [] => []
  | x :: xs => (xs.map fun y => (x, y)) ++ enum_pairs xs

/-- The trendline record built by the fitters when a candidate becomes the
best so far (`r_squared = 0.9` is the source's hard-coded placeholder). -/
def envelope_line (start_idx df_len : ℕ) (is_upper : Bool)
    (slope intercept : ℚ) (idx1 touches : ℕ) : FinvizTrendline :=
  { slope := slope, intercept := intercept, start_index := start_idx + idx1,
    end_index := df_len - 1, touches := touches, is_upper := is_upper,
    r_squared := 0.9 }

/-- The per-pair computation of the upper-envelope loop: `none` when the pair
is skipped (`idx2 == idx1` · `continue`) or fails the static eligibility test
`touches >= min_touches`; otherwise the pair's score and trendline.  The
source's update guard `touches >= min_touches and score > best_score`
factors into this static part and the dynamic comparison `arg_step` with the
running best, because the first conjunct does not mention the best. -/
def upper_pair_candidate (unique_highs : List (ℕ × ℚ))
    (min_touches start_idx df_len : ℕ) (pr : (ℕ × ℚ) × (ℕ × ℚ)) :
    Option (ℤ × FinvizTrendline) :=
  if pr.2.1 = pr.1.1 then none
  else
    let slope := (pr.2.2 - pr.1.2) / ((pr.2.1 : ℚ) - (pr.1.1 : ℚ))
    let intercept := pr.1.2 - slope * (pr.1.1 : ℚ)
    let tv := sum_contribs (upper_point_contrib slope intercept) unique_highs
    let score : ℤ := (tv.1 : ℤ) * 10 - (tv.2 : ℤ) * 20
    if min_touches ≤ tv.1 then
      some (score, envelope_line start_idx df_len true slope intercept pr.1.1 tv.1)
    else none

/-- The per-pair computation of the lower-envelope loop. -/
def lower_pair_candidate (unique_lows : List (ℕ × ℚ))
    (min_touches start_idx df_len : ℕ) (pr : (ℕ × ℚ) × (ℕ × ℚ)) :
    Option (ℤ × FinvizTrendline) :=
  if pr.2.1 = pr.1.1 then none
  else
    let slope := (pr.2.2 - pr.1.2) / ((pr.2.1 : ℚ) - (pr.1.1 : ℚ))
    let intercept := pr.1.2 - slope * (pr.1.1 : ℚ)
    let tv := sum_contribs (lower_point_contrib slope intercept) unique_lows
    let score : ℤ := (tv.1 : ℤ) * 10 - (tv.2 : ℤ) * 20
    if min_touches ≤ tv.1 then
      some (score, envelope_line start_idx df_len false slope intercept pr.1.1 tv.1)
    else none

/-- `best_score/best_line` update against the running best: replace only on a
strictly greater score (`score > best_score`, the `-inf` start being `none`). -/
def arg_step {τ : Type} (best : Option (ℤ × τ)) (y : ℤ × τ) : Option (ℤ × τ) :=
  match best with
  | none => some y
  | some z => if z.1 < y.1 then some y else z

/-- One iteration of the double loop: skipped or ineligible pairs leave the
best untouched, eligible ones go through the strict-improvement update. -/
def pair_fold_step {α τ : Type} (cand : α → Option (ℤ × τ))
    (best : Option (ℤ × τ)) (pr : α) : Option (ℤ × τ) :=
  match cand pr with
  | none => best
  | some y => arg_step best y

/-- `finviz_trendlines.fit_upper_envelope`: restrict to the trailing
`lookback` bars, merge the window 5/10/15 swing highs de-duplicated by index,
and brute-force the best-scoring pair line. -/
def fit_upper_envelope (df : List Bar) (lookback : ℕ := 100)
    (min_touches : ℕ := 2) : Option FinvizTrendline :=
  let start_idx := df.length - lookback
  let df_work := df.drop start_idx
  let unique_highs := unique_points (find_significant_highs df_work 5 ++
    find_significant_highs df_work 10 ++ find_significant_highs df_work 15)
  if unique_highs.length < 2 then none
  else
    ((enum_pairs unique_highs).foldl
        (pair_fold_step (upper_pair_candidate unique_highs min_touches start_idx df.length))
        none).map Prod.snd

/-- `finviz_trendlines.fit_lower_envelope`. -/
def fit_lower_envelope (df : List Bar) (lookback : ℕ := 100)
    (min_touches : ℕ := 2) : Option FinvizTrendline :=
  let start_idx := df.length - lookback
  let df_work := df.drop start_idx
  let unique_lows := unique_points (find_significant_lows df_work 5 ++
    find_significant_lows df_work 10 ++ find_significant_lows df_work 15)
  if unique_lows.length < 2 then none
  else
    ((enum_pairs unique_lows).foldl
        (pair_fold_step (lower_pair_candidate unique_lows min_touches start_idx df.length))
        none).map Prod.snd

/-- The eligible candidate roster of the upper fitter, in enumeration order:
score and line of every distinct-index pair clearing `min_touches`. -/
def upper_candidates (df : List Bar) (lookback min_touches : ℕ) :
    List (ℤ × FinvizTrendline) :=
  let start_idx := df.length - lookback
  let df_work := df.drop start_idx
  let unique_highs := unique_points (find_significant_highs df_work 5 ++
    find_significant_highs df_work 10 ++ find_significant_highs df_work 15)
  (enum_pairs unique_highs).filterMap
    (upper_pair_candidate unique_highs min_touches start_idx df.length)

/-- The eligible candidate roster of the lower fitter. -/
def lower_candidates (df : List Bar) (lookback min_touches : ℕ) :
    List (ℤ × FinvizTrendline) :=
  let start_idx := df.length - lookback
  let df_work := df.drop start_idx
  let unique_lows := unique_points (find_significant_lows df_work 5 ++
    find_significant_lows df_work 10 ++ find_significant_lows df_work 15)
  (enum_pairs unique_lows).filterMap
    (lower_pair_candidate unique_lows min_touches start_idx df.length)

-- The double loop is the strict-improvement fold over the eligible roster.
lemma foldl_pair_fold_step {α τ : Type} (cand : α → Option (ℤ × τ))
    (P : List α) (b : Option (ℤ × τ)) :
    P.foldl (pair_fold_step cand) b = (P.filterMap cand).foldl arg_step b := by
  induction P generalizing b with
  | nil => rfl
  | cons pr P ih =>
    simp only [List.foldl_cons, List.filterMap_cons]
    cases h : cand pr with
    | none => simp only [pair_fold_step, h, ih]
    | some y => simp only [pair_fold_step, h, ih, List.foldl_cons]

-- A list of fewer than two points yields no pairs.
lemma enum_pairs_eq_nil {α : Type} {l : List α} (h : l.length < 2) :
    enum_pairs l = [] := by
  match l, h with
  | [], _ => rfl
  | [x], _ => rfl

-- Folding the strict-improvement update from a `some` state yields either the
-- unchanged state (nothing strictly better) or the first maximal strictly
-- better element.
lemma arg_fold_some {τ : Type} (E : List (ℤ × τ)) (z : ℤ × τ) :
    (E.foldl arg_step (some z) = some z ∧
      ∀ m (hm : m < E.length), (E.get ⟨m, hm⟩).1 ≤ z.1) ∨
    (∃ k, ∃ hk : k < E.length,
      E.foldl arg_step (some z) = some (E.get ⟨k, hk⟩) ∧
      z.1 < (E.get ⟨k, hk⟩).1 ∧
      (∀ m (hm : m < E.length), (E.get ⟨m, hm⟩).1 ≤ (E.get ⟨k, hk⟩).1) ∧
      (∀ m (hm : m < E.length), m < k → (E.get ⟨m, hm⟩).1 < (E.get ⟨k, hk⟩).1)) := by
  induction E generalizing z with
  | nil =>
    left
    exact ⟨rfl, fun m hm => absurd hm (by simp)⟩
  | cons e E ih =>
    rw [List.foldl_cons]
    by_cases he : z.1 < e.1
    · rw [show arg_step (some z) e = some e by simp [arg_step, he]]
      rcases ih e with ⟨heq, hle⟩ | ⟨k, hk, heq, hlt, hle, hstrict⟩
      · right
        refine ⟨0, by simp, by simpa using heq, by simpa using he, ?_, ?_⟩
        · intro m hm
          match m, hm with
          | 0, _ => exact le_refl _
          | m' + 1, hm => simpa using hle m' (by simpa using hm)
        · intro m hm hmk
          exact absurd hmk (Nat.not_lt_zero m)
      · right
        refine ⟨k + 1, by simpa using hk, by simpa using heq, ?_, ?_, ?_⟩
        · simpa using lt_trans he hlt
        · intro m hm
          match m, hm with
          | 0, _ => simpa using le_of_lt hlt
          | m' + 1, hm => simpa using hle m' (by simpa using hm)
        · intro m hm hmk
          match m, hm with
          | 0, _ => simpa using hlt
          | m' + 1, hm => simpa using hstrict m' (by simpa using hm) (by omega)
    · rw [show arg_step (some z) e = some z by simp [arg_step, he]]
      rcases ih z with ⟨heq, hle⟩ | ⟨k, hk, heq, hlt, hle, hstrict⟩
      · left
        refine ⟨heq, ?_⟩
        intro m hm
        match m, hm with
        | 0, _ => simpa using not_lt.mp he
        | m' + 1, hm => simpa using hle m' (by simpa using hm)
      · right
        refine ⟨k + 1, by simpa using hk, by simpa using heq, hlt, ?_, ?_⟩
        · intro m hm
          match m, hm with
          | 0, _ => simpa using le_of_lt (lt_of_le_of_lt (not_lt.mp he) hlt)
          | m' + 1, hm => simpa using hle m' (by simpa using hm)
        · intro m hm hmk
          match m, hm with
          | 0, _ => simpa using lt_of_le_of_lt (not_lt.mp he) hlt
          | m' + 1, hm => simpa using hstrict m' (by simpa using hm) (by omega)

-- Folding from the `-inf` start: `none` exactly on the empty roster, else the
-- first element of highest score.
lemma arg_fold_none {τ : Type} (E : List (ℤ × τ)) :
    (E.foldl arg_step none = none ↔ E = []) ∧
    (E ≠ [] → ∃ k, ∃ hk : k < E.length,
      E.foldl arg_step none = some (E.get ⟨k, hk⟩) ∧
      (∀ m (hm : m < E.length), (E.get ⟨m, hm⟩).1 ≤ (E.get ⟨k, hk⟩).1) ∧
      (∀ m (hm : m < E.length), m < k → (E.get ⟨m, hm⟩).1 < (E.get ⟨k, hk⟩).1)) := by
  cases E with
  | nil => exact ⟨by simp, fun h => absurd rfl h⟩
  | cons e E =>
    have h0 : (e :: E).foldl arg_step none = E.foldl arg_step (some e) := by
      rw [List.foldl_cons]; rfl
    have hchar :
        ∃ k, ∃ hk : k < (e :: E).length,
          (e :: E).foldl arg_step none = some ((e :: E).get ⟨k, hk⟩) ∧
          (∀ m (hm : m < (e :: E).length),
            ((e :: E).get ⟨m, hm⟩).1 ≤ ((e :: E).get ⟨k, hk⟩).1) ∧
          (∀ m (hm : m < (e :: E).length), m < k →
            ((e :: E).get ⟨m, hm⟩).1 < ((e :: E).get ⟨k, hk⟩).1) := by
      rcases arg_fold_some E e with ⟨heq, hle⟩ | ⟨k, hk, heq, hlt, hle, hstrict⟩
      · refine ⟨0, by simp, by rw [h0, heq]; simp, ?_, ?_⟩
        · intro m hm
          match m, hm with
          | 0, _ => exact le_refl _
          | m' + 1, hm => simpa using hle m' (by simpa using hm)
        · intro m hm hmk
          exact absurd hmk (Nat.not_lt_zero m)
      · refine ⟨k + 1, by simpa using hk, by rw [h0, heq]; simp, ?_, ?_⟩
        · intro m hm
          match m, hm with
          | 0, _ => simpa using le_of_lt hlt
          | m' + 1, hm => simpa using hle m' (by simpa using hm)
        · intro m hm hmk
          match m, hm with
          | 0, _ => simpa using hlt
          | m' + 1, hm => simpa using hstrict m' (by simpa using hm) (by omega)
    refine ⟨?_, fun _ => hchar⟩
    obtain ⟨k, hk, heq, -, -⟩ := hchar
    rw [heq]
    simp

-- Shared characterization of both fitters' bodies.
lemma fit_body_characterize {τ : Type} (U : List (ℕ × ℚ))
    (cand : (ℕ × ℚ) × (ℕ × ℚ) → Option (ℤ × τ)) :
    ((if U.length < 2 then none else
        ((enum_pairs U).foldl (pair_fold_step cand) none).map Prod.snd) = none ↔
      (enum_pairs U).filterMap cand = []) ∧
    ((enum_pairs U).filterMap cand ≠ [] →
      ∃ k, ∃ hk : k < ((enum_pairs U).filterMap cand).length,
        (if U.length < 2 then none else
          ((enum_pairs U).foldl (pair_fold_step cand) none).map Prod.snd) =
          some ((((enum_pairs U).filterMap cand).get ⟨k, hk⟩).2) ∧
        (∀ m (hm : m < ((enum_pairs U).filterMap cand).length),
          (((enum_pairs U).filterMap cand).get ⟨m, hm⟩).1 ≤
            (((enum_pairs U).filterMap cand).get ⟨k, hk⟩).1) ∧
        (∀ m (hm : m < ((enum_pairs U).filterMap cand).length), m < k →
          (((enum_pairs U).filterMap cand).get ⟨m, hm⟩).1 <
            (((enum_pairs U).filterMap cand).get ⟨k, hk⟩).1)) := by
  by_cases hU : U.length < 2
  · have hE : (enum_pairs U).filterMap cand = [] := by
      rw [enum_pairs_eq_nil hU]
      rfl
    rw [if_pos hU]
    exact ⟨by simp [hE], fun hne => absurd hE hne⟩
  · rw [if_neg hU, foldl_pair_fold_step]
    obtain ⟨hiff, hsome⟩ := arg_fold_none ((enum_pairs U).filterMap cand)
    constructor
    · rw [← hiff]
      cases ((enum_pairs U).filterMap cand).foldl arg_step none <;> simp
    · intro hne
      obtain ⟨k, hk, heq, hle, hstrict⟩ := hsome hne
      exact ⟨k, hk, by rw [heq]; rfl, hle, hstrict⟩

/-- **C1.** Both envelope fitters return `None` exactly when the eligible
candidate roster (distinct-index pairs with `touches >= min_touches`, scored
`touches*10 - violations*20` over all candidate points) is empty; otherwise
they return the line of a roster entry whose score is maximal and which is
the first entry attaining that maximum in ascending `(i, j)` pair-enumeration
order (every earlier entry scores strictly less — ties keep the first). -/
theorem envelope_fitter_keeps_first_highest_score
    (df : List Bar) (lookback min_touches : ℕ) :
    (fit_upper_envelope df lookback min_touches = none ↔
      upper_candidates df lookback min_touches = []) ∧
    (upper_candidates df lookback min_touches ≠ [] →
      ∃ k, ∃ hk : k < (upper_candidates df lookback min_touches).length,
        fit_upper_envelope df lookback min_touches =
          some (((upper_candidates df lookback min_touches).get ⟨k, hk⟩).2) ∧
        (∀ m (hm : m < (upper_candidates df lookback min_touches).length),
          ((upper_candidates df lookback min_touches).get ⟨m, hm⟩).1 ≤
            ((upper_candidates df lookback min_touches).get ⟨k, hk⟩).1) ∧
        (∀ m (hm : m < (upper_candidates df lookback min_touches).length), m < k →
          ((upper_candidates df lookback min_touches).get ⟨m, hm⟩).1 <
            ((upper_candidates df lookback min_touches).get ⟨k, hk⟩).1)) ∧
    (fit_lower_envelope df lookback min_touches = none ↔
      lower_candidates df lookback min_touches = []) ∧
    (lower_candidates df lookback min_touches ≠ [] →
      ∃ k, ∃ hk : k < (lower_candidates df lookback min_touches).length,
        fit_lower_envelope df lookback min_touches =
          some (((lower_candidates df lookback min_touches).get ⟨k, hk⟩).2) ∧
        (∀ m (hm : m < (lower_candidates df lookback min_touches).length),
          ((lower_candidates df lookback min_touches).get ⟨m, hm⟩).1 ≤
            ((lower_candidates df lookback min_touches).get ⟨k, hk⟩).1) ∧
        (∀ m (hm : m < (lower_candidates df lookback min_touches).length), m < k →
          ((lower_candidates df lookback min_touches).get ⟨m, hm⟩).1 <
            ((lower_candidates df lookback min_touches).get ⟨k, hk⟩).1)) := by
  simp only [fit_upper_envelope, fit_lower_envelope, upper_candidates, lower_candidates]
  exact ⟨(fit_body_characterize _ _).1, (fit_body_characterize _ _).2,
    (fit_body_characterize _ _).1, (fit_body_characterize _ _).2⟩

/-- Witness for C1 on the concrete series with highs `[2,2,2]` and lows
`[1,2,1]`: both rosters are non-empty, so both fitters return a
first-highest-score line. -/
theorem envelope_fitter_keeps_first_highest_score_witness :
    (upper_candidates [⟨1,2,1,1⟩, ⟨2,2,2,2⟩, ⟨1,2,1,1⟩] 100 2 ≠ [] ∧
      lower_candidates [⟨1,2,1,1⟩, ⟨2,2,2,2⟩, ⟨1,2,1,1⟩] 100 2 ≠ []) ∧
    (∃ k, ∃ hk : k < (upper_candidates [⟨1,2,1,1⟩, ⟨2,2,2,2⟩, ⟨1,2,1,1⟩] 100 2).length,
      fit_upper_envelope [⟨1,2,1,1⟩, ⟨2,2,2,2⟩, ⟨1,2,1,1⟩] 100 2 =
        some (((upper_candidates [⟨1,2,1,1⟩, ⟨2,2,2,2⟩, ⟨1,2,1,1⟩] 100 2).get ⟨k, hk⟩).2) ∧
      (∀ m (hm : m < (upper_candidates [⟨1,2,1,1⟩, ⟨2,2,2,2⟩, ⟨1,2,1,1⟩] 100 2).length),
        ((upper_candidates [⟨1,2,1,1⟩, ⟨2,2,2,2⟩, ⟨1,2,1,1⟩] 100 2).get ⟨m, hm⟩).1 ≤
          ((upper_candidates [⟨1,2,1,1⟩, ⟨2,2,2,2⟩, ⟨1,2,1,1⟩] 100 2).get ⟨k, hk⟩).1) ∧
      (∀ m (hm : m < (upper_candidates [⟨1,2,1,1⟩, ⟨2,2,2,2⟩, ⟨1,2,1,1⟩] 100 2).length),
        m < k →
        ((upper_candidates [⟨1,2,1,1⟩, ⟨2,2,2,2⟩, ⟨1,2,1,1⟩] 100 2).get ⟨m, hm⟩).1 <
          ((upper_candidates [⟨1,2,1,1⟩, ⟨2,2,2,2⟩, ⟨1,2,1,1⟩] 100 2).get ⟨k, hk⟩).1)) ∧
    (∃ k, ∃ hk : k < (lower_candidates [⟨1,2,1,1⟩, ⟨2,2,2,2⟩, ⟨1,2,1,1⟩] 100 2).length,
      fit_lower_envelope [⟨1,2,1,1⟩, ⟨2,2,2,2⟩, ⟨1,2,1,1⟩] 100 2 =
        some (((lower_candidates [⟨1,2,1,1⟩, ⟨2,2,2,2⟩, ⟨1,2,1,1⟩] 100 2).get ⟨k, hk⟩).2) ∧
      (∀ m (hm : m < (lower_candidates [⟨1,2,1,1⟩, ⟨2,2,2,2⟩, ⟨1,2,1,1⟩] 100 2).length),
        ((lower_candidates [⟨1,2,1,1⟩, ⟨2,2,2,2⟩, ⟨1,2,1,1⟩] 100 2).get ⟨m, hm⟩).1 ≤
          ((lower_candidates [⟨1,2,1,1⟩, ⟨2,2,2,2⟩, ⟨1,2,1,1⟩] 100 2).get ⟨k, hk⟩).1) ∧
      (∀ m (hm : m < (lower_candidates [⟨1,2,1,1⟩, ⟨2,2,2,2⟩, ⟨1,2,1,1⟩] 100 2).length),
        m < k →
        ((lower_candidates [⟨1,2,1,1⟩, ⟨2,2,2,2⟩, ⟨1,2,1,1⟩] 100 2).get ⟨m, hm⟩).1 <
          ((lower_candidates [⟨1,2,1,1⟩, ⟨2,2,2,2⟩, ⟨1,2,1,1⟩] 100 2).get ⟨k, hk⟩).1)) := by
  have hu : upper_candidates [⟨1,2,1,1⟩, ⟨2,2,2,2⟩, ⟨1,2,1,1⟩] 100 2 ≠ [] := by
    norm_num [upper_candidates, upper_pair_candidate, unique_points, pysorted, insert_pair,
      pair_le, dedup_by_index, find_significant_highs, argrelextrema, isRelExtremum, clipIdx,
      geB, enum_pairs, sum_contribs, upper_point_contrib, envelope_line, List.filterMap]
    decide
  have hl : lower_candidates [⟨1,2,1,1⟩, ⟨2,2,2,2⟩, ⟨1,2,1,1⟩] 100 2 ≠ [] := by
    norm_num [lower_candidates, lower_pair_candidate, unique_points, pysorted, insert_pair,
      pair_le, dedup_by_index, find_significant_lows, argrelextrema, isRelExtremum, clipIdx,
      leB, enum_pairs, sum_contribs, lower_point_contrib, envelope_line, List.filterMap]
  have h := envelope_fitter_keeps_first_highest_score
    [⟨1,2,1,1⟩, ⟨2,2,2,2⟩, ⟨1,2,1,1⟩] 100 2
  exact ⟨⟨hu, hl⟩, h.2.1 hu, h.2.2.2 hl⟩

/-- Python `l[-n:]` (`n = 0` selects the whole list). -/
def take_last {α : Type} (l : List α) (n : ℕ) : List α :=
  if n = 0 then l else l.drop (l.length - n)

/-- Stable insertion step for sorting pivots by bar index. -/
def insert_pivot (p : PivotPoint) : List PivotPoint → List PivotPoint
  | [] => [p]
  | q :: qs => if p.index ≤ q.index then p :: q :: qs else q :: insert_pivot p qs

/-- Python `sorted(pivots, key=index)` (stable insertion sort). -/
def sort_pivots_by_index : List PivotPoint → List PivotPoint
  | [] => []
  | p :: ps => insert_pivot p (sort_pivots_by_index ps)

/-- `pivot_detector.get_last_n_pivots` with the default `before_index=None`
(no call site in the repository passes a `before_index`): the last `n` pivots,
returned oldest first. -/
def get_last_n_pivots (pivots : List PivotPoint) (n : ℕ := 2) : List PivotPoint :=
  let last_n := if n ≤ pivots.length then take_last pivots n else pivots
  sort_pivots_by_index last_n

/-- `trendline_calculator.calculate_resistance_trendline`: regression line
through the last `num_pivots` confirmed swing highs.  The `.error` branch is
unreachable (the guard ensures at least 2 pivots) and the `headD` default is
never used (the pivot list is non-empty at every `some` return), mirroring
Python's partiality. -/
def calculate_resistance_trendline (df : List Bar) (lookback : ℕ := 10)
    (num_pivots : ℕ := 2) (extend_bars : ℕ := 10) : Option Trendline :=
  let pivot_highs := detect_pivot_highs df lookback
  if pivot_highs.length < num_pivots then none
  else
    let pivots := get_last_n_pivots pivot_highs num_pivots
    let x := pivots.map fun p => (p.index : ℚ)
    let y := pivots.map (·.price)
    match calculate_linear_regression x y with
    | .error _ => none
    | .ok (slope, intercept, r_squared) =>
      let end_index := df.length - 1 + extend_bars
      let end_price := slope * (end_index : ℚ) + intercept
      some { slope := slope, intercept := intercept,
             start_index := (pivots.headD ⟨0, 0, true⟩).index,
             end_index := end_index,
             start_price := (pivots.headD ⟨0, 0, true⟩).price,
             end_price := end_price,
             pivot_points := pivots,
             is_resistance := true,
             r_squared := r_squared }

/-- `trendline_calculator.calculate_support_trendline`. -/
def calculate_support_trendline (df : List Bar) (lookback : ℕ := 10)
    (num_pivots : ℕ := 2) (extend_bars : ℕ := 10) : Option Trendline :=
  let pivot_lows := detect_pivot_lows df lookback
  if pivot_lows.length < num_pivots then none
  else
    let pivots := get_last_n_pivots pivot_lows num_pivots
    let x := pivots.map fun p => (p.index : ℚ)
    let y := pivots.map (·.price)
    match calculate_linear_regression x y with
    | .error _ => none
    | .ok (slope, intercept, r_squared) =>
      let end_index := df.length - 1 + extend_bars
      let end_price := slope * (end_index : ℚ) + intercept
      some { slope := slope, intercept := intercept,
             start_index := (pivots.headD ⟨0, 0, false⟩).index,
             end_index := end_index,
             start_price := (pivots.headD ⟨0, 0, false⟩).price,
             end_price := end_price,
             pivot_points := pivots,
             is_resistance := false,
             r_squared := r_squared }

/-- `hammer_detector.detect_hammers`.  The TA-Lib path is an
environment-dependent vendor library outside this repository; the in-repo
fallback is the manual classifier (both emit signals in ascending bar order,
the only fact the ordering claim uses). -/
def detect_hammers (df : List Bar) : List HammerSignal :=
  detect_hammer_manual df

/-- `signal_generator.TrendlineHammerSignal` (`date` omitted; the hammer's
bar index carries the chronology). -/
structure TrendlineHammerSignal where
  symbol : String
  signal_type : String
  trendline_type : String
  hammer : HammerSignal
  trendline : Trendline
  distance_pct : ℚ
  is_touch : Bool
  strength : String
  action : String
deriving DecidableEq, Repr

/-- `signal_generator.calculate_hammer_trendline_distance`: absolute
percentage distance and 0.5%-touch flag, directional by line kind. -/
def calculate_hammer_trendline_distance (hammer : HammerSignal)
    (trendline : Trendline) : ℚ × Bool :=
  let trendline_price := trendline.get_price_at_index hammer.index
  let touch_tolerance : ℚ := 0.005
  if trendline.is_resistance then
    let price_to_check := hammer.high_price
    let distance := (trendline_price - price_to_check) / trendline_price * 100
    let is_touch :=
      decide (|trendline_price - price_to_check| / trendline_price ≤ touch_tolerance)
    (|distance|, is_touch)
  else
    let price_to_check := hammer.low_price
    let distance := (price_to_check - trendline_price) / trendline_price * 100
    let is_touch :=
      decide (|price_to_check - trendline_price| / trendline_price ≤ touch_tolerance)
    (|distance|, is_touch)

/-- `signal_generator.get_action_recommendation`. -/
def get_action_recommendation (trendline : Trendline) (hammer : HammerSignal)
    (strength : String) : String :=
  if trendline.is_resistance then
    if hammer.is_bullish = true ∧ strength = "STRONG" then
      "WATCH FOR BREAKOUT - Bullish hammer at resistance may signal breakout"
    else
      "POTENTIAL REVERSAL DOWN - Hammer at resistance may signal rejection"
  else
    if hammer.is_bullish = true then
      "BUY SIGNAL - Bullish hammer at support indicates potential bounce"
    else
      "WATCH FOR BOUNCE - Hammer at support may signal reversal up"

/-- The per-hammer body of `find_hammer_on_resistance`: skip hammers before
the trendline start, then emit when within tolerance or touching. -/
def resistance_signal_for (symbol : String) (tolerance_pct : ℚ)
    (resistance : Trendline) (hammer : HammerSignal) :
    Option TrendlineHammerSignal :=
  if hammer.index < resistance.start_index then none
  else
    let dt := calculate_hammer_trendline_distance hammer resistance
    if dt.1 ≤ tolerance_pct ∨ dt.2 = true then
      let strength := evaluate_signal_strength dt.1 dt.2 hammer resistance
      some { symbol := symbol, signal_type := "RESISTANCE_HAMMER",
             trendline_type := "resistance", hammer := hammer,
             trendline := resistance, distance_pct := dt.1, is_touch := dt.2,
             strength := strength,
             action := get_action_recommendation resistance hammer strength }
    else none

/-- The per-hammer body of `find_hammer_on_support`. -/
def support_signal_for (symbol : String) (tolerance_pct : ℚ)
    (support : Trendline) (hammer : HammerSignal) :
    Option TrendlineHammerSignal :=
  if hammer.index < support.start_index then none
  else
    let dt := calculate_hammer_trendline_distance hammer support
    if dt.1 ≤ tolerance_pct ∨ dt.2 = true then
      let strength := evaluate_signal_strength dt.1 dt.2 hammer support
      some { symbol := symbol, signal_type := "SUPPORT_HAMMER",
             trendline_type := "support", hammer := hammer,
             trendline := support, distance_pct := dt.1, is_touch := dt.2,
             strength := strength,
             action := get_action_recommendation support hammer strength }
    else none

/-- `signal_generator.find_hammer_on_resistance`. -/
def find_hammer_on_resistance (df : List Bar) (symbol : String := "")
    (lookback : ℕ := 10) (tolerance_pct : ℚ := 2.0) :
    List TrendlineHammerSignal :=
  match calculate_resistance_trendline df lookback with
  | none => []
  | some resistance =>
    (detect_hammers df).filterMap (resistance_signal_for symbol tolerance_pct resistance)

/-- `signal_generator.find_hammer_on_support`. -/
def find_hammer_on_support (df : List Bar) (symbol : String := "")
    (lookback : ℕ := 10) (tolerance_pct : ℚ := 2.0) :
    List TrendlineHammerSignal :=
  match calculate_support_trendline df lookback with
  | none => []
  | some support =>
    (detect_hammers df).filterMap (support_signal_for symbol tolerance_pct support)

/-- `signal_generator.find_all_trendline_hammer_signals`: resistance signals
first (the more important kind), then support signals. -/
def find_all_trendline_hammer_signals (df : List Bar) (symbol : String := "")
    (lookback : ℕ := 10) (tolerance_pct : ℚ := 2.0) :
    List TrendlineHammerSignal :=
  find_hammer_on_resistance df symbol lookback tolerance_pct ++
    find_hammer_on_support df symbol lookback tolerance_pct

-- Signals of the manual classifier appear in strictly ascending bar order.
lemma detect_hammer_manual_pairwise (df : List Bar) (q1 q2 q3 q4 : ℚ) :
    List.Pairwise (fun a b => a.index < b.index)
      (detect_hammer_manual df q1 q2 q3 q4) := by
  unfold detect_hammer_manual
  refine List.pairwise_filterMap.mpr ?_
  refine (List.pairwise_lt_range df.length).imp ?_
  intro i j hij s hs t ht
  rw [Option.mem_def] at hs ht
  rw [classify_hammer_bar_index hs, classify_hammer_bar_index ht]
  exact hij

-- The emitted resistance signal carries its hammer and the fixed labels.
lemma resistance_signal_for_spec {symbol : String} {tol : ℚ} {r : Trendline}
    {h : HammerSignal} {s : TrendlineHammerSignal}
    (hs : resistance_signal_for symbol tol r h = some s) :
    s.hammer = h ∧ s.trendline_type = "resistance" ∧
      s.signal_type = "RESISTANCE_HAMMER" := by
  simp only [resistance_signal_for] at hs
  split at hs
  · exact absurd hs (by simp)
  · split at hs
    · cases hs.symm
      exact ⟨rfl, rfl, rfl⟩
    · exact absurd hs (by simp)

lemma support_signal_for_spec {symbol : String} {tol : ℚ} {r : Trendline}
    {h : HammerSignal} {s : TrendlineHammerSignal}
    (hs : support_signal_for symbol tol r h = some s) :
    s.hammer = h ∧ s.trendline_type = "support" ∧
      s.signal_type = "SUPPORT_HAMMER" := by
  simp only [support_signal_for] at hs
  split at hs
  · exact absurd hs (by simp)
  · split at hs
    · cases hs.symm
      exact ⟨rfl, rfl, rfl⟩
    · exact absurd hs (by simp)

/-- **C7.** The combined output lists every resistance signal before every
support signal (it is literally the concatenation of the two groups, whose
labels are fixed), and within each group the signals are in strictly
ascending hammer bar-index (chronological) order. -/
theorem resistance_signals_precede_support_in_chronological_order
    (df : List Bar) (symbol : String) (lookback : ℕ) (tolerance_pct : ℚ) :
    find_all_trendline_hammer_signals df symbol lookback tolerance_pct =
      find_hammer_on_resistance df symbol lookback tolerance_pct ++
        find_hammer_on_support df symbol lookback tolerance_pct ∧
    (∀ s ∈ find_hammer_on_resistance df symbol lookback tolerance_pct,
      s.trendline_type = "resistance" ∧ s.signal_type = "RESISTANCE_HAMMER") ∧
    (∀ s ∈ find_hammer_on_support df symbol lookback tolerance_pct,
      s.trendline_type = "support" ∧ s.signal_type = "SUPPORT_HAMMER") ∧
    List.Pairwise (fun a b => a.hammer.index < b.hammer.index)
      (find_hammer_on_resistance df symbol lookback tolerance_pct) ∧
    List.Pairwise (fun a b => a.hammer.index < b.hammer.index)
      (find_hammer_on_support df symbol lookback tolerance_pct) := by
  refine ⟨rfl, ?_, ?_, ?_, ?_⟩
  · intro s hs
    unfold find_hammer_on_resistance at hs
    split at hs
    · cases hs
    · obtain ⟨h, -, hsome⟩ := List.mem_filterMap.mp hs
      exact (resistance_signal_for_spec hsome).2
  · intro s hs
    unfold find_hammer_on_support at hs
    split at hs
    · cases hs
    · obtain ⟨h, -, hsome⟩ := List.mem_filterMap.mp hs
      exact (support_signal_for_spec hsome).2
  · unfold find_hammer_on_resistance
    split
    · exact List.Pairwise.nil
    · refine List.pairwise_filterMap.mpr ?_
      refine (detect_hammer_manual_pairwise df _ _ _ _).imp ?_
      intro a b hab s hs t ht
      rw [Option.mem_def] at hs ht
      rw [(resistance_signal_for_spec hs).1, (resistance_signal_for_spec ht).1]
      exact hab
  · unfold find_hammer_on_support
    split
    · exact List.Pairwise.nil
    · refine List.pairwise_filterMap.mpr ?_
      refine (detect_hammer_manual_pairwise df _ _ _ _).imp ?_
      intro a b hab s hs t ht
      rw [Option.mem_def] at hs ht
      rw [(support_signal_for_spec hs).1, (support_signal_for_spec ht).1]
      exact hab

/-- Witness for C7 on a concrete 5-bar series with a hammer at bar 2 touching
both the flat resistance line and the descending support line: both groups
are non-empty and carry the labels the theorem assigns. -/
theorem resistance_signals_precede_support_witness :
    (∃ s, s ∈ find_hammer_on_resistance
        [⟨10,10,10,10⟩, ⟨10,10,10,10⟩, ⟨10,10,9,10⟩, ⟨10,10,10,10⟩, ⟨10,10,10,10⟩] "" 1 2 ∧
      s.trendline_type = "resistance" ∧ s.signal_type = "RESISTANCE_HAMMER") ∧
    (∃ s, s ∈ find_hammer_on_support
        [⟨10,10,10,10⟩, ⟨10,10,10,10⟩, ⟨10,10,9,10⟩, ⟨10,10,10,10⟩, ⟨10,10,10,10⟩] "" 1 2 ∧
      s.trendline_type = "support" ∧ s.signal_type = "SUPPORT_HAMMER") := by
  have h := resistance_signals_precede_support_in_chronological_order
    [⟨10,10,10,10⟩, ⟨10,10,10,10⟩, ⟨10,10,9,10⟩, ⟨10,10,10,10⟩, ⟨10,10,10,10⟩] "" 1 2
  have hr : find_hammer_on_resistance
      [⟨10,10,10,10⟩, ⟨10,10,10,10⟩, ⟨10,10,9,10⟩, ⟨10,10,10,10⟩, ⟨10,10,10,10⟩] "" 1 2 ≠ [] := by
    have hrt : calculate_resistance_trendline
        [⟨10,10,10,10⟩, ⟨10,10,10,10⟩, ⟨10,10,9,10⟩, ⟨10,10,10,10⟩, ⟨10,10,10,10⟩] 1 =
        some { slope := 0, intercept := 10, start_index := 2, end_index := 14,
               start_price := 10, end_price := 10,
               pivot_points := [⟨2,10,true⟩, ⟨3,10,true⟩],
               is_resistance := true, r_squared := 1 } := by
      norm_num [calculate_resistance_trendline, get_last_n_pivots, take_last,
        sort_pivots_by_index, insert_pivot, detect_pivot_highs, argrelextrema,
        isRelExtremum, clipIdx, geB, calculate_linear_regression]
      intro hcon
      exact absurd hcon (by decide)
    unfold find_hammer_on_resistance
    rw [hrt]
    norm_num [detect_hammers, detect_hammer_manual, classify_hammer_bar,
      resistance_signal_for, calculate_hammer_trendline_distance,
      Trendline.get_price_at_index, evaluate_signal_strength,
      get_action_recommendation, List.filterMap, List.range_succ]
  have hsup : find_hammer_on_support
      [⟨10,10,10,10⟩, ⟨10,10,10,10⟩, ⟨10,10,9,10⟩, ⟨10,10,10,10⟩, ⟨10,10,10,10⟩] "" 1 2 ≠ [] := by
    have hst : calculate_support_trendline
        [⟨10,10,10,10⟩, ⟨10,10,10,10⟩, ⟨10,10,9,10⟩, ⟨10,10,10,10⟩, ⟨10,10,10,10⟩] 1 =
        some { slope := -(1/2), intercept := 10, start_index := 0, end_index := 14,
               start_price := 10, end_price := 3,
               pivot_points := [⟨0,10,false⟩, ⟨2,9,false⟩],
               is_resistance := false, r_squared := 1 } := by
      norm_num [calculate_support_trendline, get_last_n_pivots, take_last,
        sort_pivots_by_index, insert_pivot, detect_pivot_lows, argrelextrema,
        isRelExtremum, clipIdx, leB, calculate_linear_regression]
      intro hcon
      exact absurd hcon (by decide)
    unfold find_hammer_on_support
    rw [hst]
    norm_num [detect_hammers, detect_hammer_manual, classify_hammer_bar,
      support_signal_for, calculate_hammer_trendline_distance,
      Trendline.get_price_at_index, evaluate_signal_strength,
      get_action_recommendation, List.filterMap, List.range_succ]
  obtain ⟨s1, hs1⟩ := List.exists_mem_of_ne_nil _ hr
  obtain ⟨s2, hs2⟩ := List.exists_mem_of_ne_nil _ hsup
  exact ⟨⟨s1, hs1, h.2.1 s1 hs1⟩, ⟨s2, hs2, h.2.2.1 s2 hs2⟩⟩
